import Mathlib

/-!
Verification of the mysql-shell dump/load specification against the sources.

The development shallowly embeds the parts of the program the claims are
about:

* `modules/util/dump/dump_schemas_options.cc` — option unpacking and
  validation for schema dumps (exclusion lists, compatibility options, the
  `ocimds` target-mode preset, schema-list validation).
* `modules/mod_mysqlx_resultset.cc` — the X-protocol result wrappers
  (`BaseResult`, `RowResult`, `DocResult`): warning accessors and the
  `fetchOne` / `fetchAll` iteration protocol.
* The chunk planner and the compatibility rule engine of the dump core,
  which are described by the specification but whose implementation files
  are not part of the given sources; those are modelled from the
  specification text and marked as such.

C++ exceptions (`std::invalid_argument`, reported as `ConfigurationError`
by the specification) are embedded as `Except String`.
-/

set_option autoImplicit false

namespace MysqlShell

/-! ## Shell values

A minimal embedding of `shcore::Value` (`shellcore/types.h`), as far as the
result-set claims need it: the dynamically typed value handed to the
scripting front-ends.  Wrapped rows and documents are `objV` nodes.
-/

/-- A shell value: the dynamic value type of the scripting layer. -/
inductive SValue where
  | undefinedV : SValue
  | nullV : SValue
  | boolV : Bool → SValue
  | intV : Int → SValue
  | uintV : Nat → SValue
  | strV : String → SValue
  | arrV : List SValue → SValue
  | objV : List (String × SValue) → SValue

/-- Modelled from the spec: boolean conversion of a shell value
(`shellcore/types.h` is not among the given sources).  A value is falsy
exactly when it is invalid (`Undefined`) or `Null`; the fetch loops of
`mod_mysqlx_resultset.cc` stop at such a record ("until fetchOne yields a
null/invalid value"). -/
def SValue.truthy : SValue → Bool
  | SValue.undefinedV => false
  | SValue.nullV => false
  | _ => true

/-! ## Dump schemas options (`dump_schemas_options.cc`)

`Dump_schemas_options::unpack_options` parses the `excludeTables`,
`events`, `routines`, `ocimds` and `compatibility` options;
`Dump_schemas_options::validate_options` checks the requested schema
list.  Errors thrown as `std::invalid_argument` are embedded as
`Except.error` with the corresponding message.
-/

/-- Splits a list of characters at the first dot: the part before the
first dot, and everything after it (`none` when there is no dot). -/
def split_at_dot (cs : List Char) : List Char × Option (List Char) :=
  match cs.span (fun c => c ≠ '.') with
  | (before, []) => (before, none)
  | (before, _ :: after) => (before, some after)

/-- Modelled from the spec: `shcore::split_schema_and_table`
(`mysqlshdk/libs/utils/utils_general.cc` is not among the given sources).
The spec requires an exclusion entry to split into exactly two non-empty
identifiers `schema.table`; backtick-quoted identifiers are not modelled.
An entry with no dot parses as a bare table name with an empty schema
(which the caller then rejects); a dot followed by an empty table part or
by a table part containing a further dot fails to parse. -/
def split_schema_and_table (s : String) : Except String (String × String) :=
  match split_at_dot s.toList with
  | (_, none) => Except.ok (("", s))
  | (schema, some table) =>
    if table.isEmpty then
      Except.error ("Invalid object name, expected end of name, but got: '.'")
    else if table.contains '.' then
      Except.error ("Invalid object name, expected end of name, but got: '.'")
    else
      Except.ok ((String.mk schema, String.mk table))

/-- An exclusion entry is well formed when it parses into a (schema,
table) pair whose schema part is non-empty; `unpack_options` accepts
exactly the well-formed entries. -/
def valid_exclusion_entry (s : String) : Bool :=
  match split_schema_and_table s with
  | Except.ok p => !(p.1.isEmpty)
  | Except.error _ => false

/-- Modelled from the spec: the named compatibility transformation rules
(`to_compatibility_option` lives outside the given sources).  The rule
names follow the examples given by the specification: strip-definer,
strip-unsupported-index-options, force-storage-engine. -/
inductive Compatibility_option where
  | strip_definer : Compatibility_option
  | strip_unsupported_index_options : Compatibility_option
  | force_storage_engine : Compatibility_option
  deriving DecidableEq, Repr

/-- Modelled from the spec: `to_compatibility_option` — maps a
compatibility option name to its rule; an unknown or unsupported name
fails fast with a `ConfigurationError` at configuration time. -/
def to_compatibility_option (s : String) :
    Except String Compatibility_option :=
  if s = ("strip-definer") then Except.ok Compatibility_option.strip_definer
  else if s = ("strip-unsupported-index-options") then
    Except.ok Compatibility_option.strip_unsupported_index_options
  else if s = ("force-storage-engine") then
    Except.ok Compatibility_option.force_storage_engine
  else Except.error ("Unknown compatibility option: " ++ s)

/-- Modelled from the spec: the fixed compatibility rule subset enabled by
the target-mode (`ocimds`) preset; it includes stripping definer clauses
(the spec's target-mode scenario requires emitted table DDL to contain no
definer clause). -/
def mds_compatibility_options : Finset Compatibility_option :=
  insert Compatibility_option.strip_definer
    (insert Compatibility_option.force_storage_engine ∅)

/-- Modelled from the spec: the version constant `MYSH_VERSION` of the
shell build, recorded by the target-mode preset as the
minimum-supported-target-version tag destined for the Manifest. -/
def MYSH_VERSION : String := "8.0.21"

/-- The state built by `Dump_schemas_options`: requested schemas,
event/routine flags, the per-schema excluded-table sets
(`std::map<std::string, std::set<std::string>> m_excluded_tables`),
the enabled compatibility option set, and the minimum-target-version tag
recorded by the target-mode preset. -/
structure Dump_state where
  m_schemas : List String
  m_dump_events : Bool
  m_dump_routines : Bool
  m_excluded_tables : String → Finset String
  m_compatibility_options : Finset Compatibility_option
  m_mds_version : Option String

/-- The resolved configuration record consumed by `unpack_options`
(spec §6: `{schemas, excludeTables, events, routines, compatibility,
targetMode}`). -/
structure Dump_config where
  schemas : List String
  excludeTables : List String
  events : Bool
  routines : Bool
  ocimds : Bool
  compatibility : List String

/-- The exclusion-parsing loop of `unpack_options` (lines 57–73): each
entry is split into schema and table; a parse failure or an empty schema
part raises `ConfigurationError`; otherwise the table is inserted into
the per-schema excluded set. -/
def process_exclusions :
    List String → (String → Finset String) →
    Except String (String → Finset String)
  | [], m => Except.ok m
  | t :: ts, m =>
    match split_schema_and_table t with
    | Except.error e =>
      Except.error ("Failed to parse table to be excluded '" ++ t ++ ("': ")
        ++ e)
    | Except.ok (schema, table) =>
      if schema.isEmpty then
        Except.error ("The table to be excluded must be in the following "
          ++ ("form: schema.table, with optional backtick quotes, ")
          ++ ("wrong value: '") ++ t ++ ("'."))
      else
        process_exclusions ts
          (Function.update m schema (insert table (m schema)))

/-- The compatibility-option loop of `unpack_options` (lines 79–81):
`m_compatibility_options |= to_compatibility_option(option)` for each
name; an unknown name raises `ConfigurationError`. -/
def process_compatibility :
    List String → Finset Compatibility_option →
    Except String (Finset Compatibility_option)
  | [], s => Except.ok s
  | o :: os, s =>
    match to_compatibility_option o with
    | Except.error e => Except.error e
    | Except.ok c => process_compatibility os (insert c s)

/-- Modelled from the spec: `set_mds_compatibility` (declared outside the
given sources) — the target-mode preset enables its fixed rule subset and
records the minimum-supported-target-version tag for the Manifest. -/
def set_mds_compatibility (v : String) (st : Dump_state) : Dump_state :=
  { st with
    m_compatibility_options :=
      st.m_compatibility_options ∪ mds_compatibility_options
    m_mds_version := some v }

/-- `Dump_schemas_options::unpack_options` (lines 41–82): unpack
`excludeTables`, `events`, `routines`, `ocimds` and `compatibility`;
parse the exclusion entries; apply the target-mode preset when `ocimds`
is set; then fold the user compatibility options into the option set. -/
def unpack_options (cfg : Dump_config) : Except String Dump_state :=
  match process_exclusions cfg.excludeTables (fun _ => ∅) with
  | Except.error e => Except.error e
  | Except.ok excl =>
    let st0 : Dump_state :=
      { m_schemas := cfg.schemas
        m_dump_events := cfg.events
        m_dump_routines := cfg.routines
        m_excluded_tables := excl
        m_compatibility_options := ∅
        m_mds_version := none }
    let st1 := if cfg.ocimds then set_mds_compatibility MYSH_VERSION st0
               else st0
    match process_compatibility cfg.compatibility st1.m_compatibility_options
      with
    | Except.error e => Except.error e
    | Except.ok comp =>
      Except.ok { st1 with m_compatibility_options := comp }

/-- `Dump_schemas_options::validate_options` (lines 84–91): the requested
schema list must not be empty.  The base-class validation
(`Ddl_dumper_options::validate_options`, outside the given sources) only
concerns output/url options and is modelled as succeeding. -/
def validate_options (st : Dump_state) : Except String Unit :=
  if st.m_schemas = ([] : List String) then
    Except.error ("The 'schemas' parameter cannot be an empty list.")
  else
    Except.ok ()

/-- The per-schema excluded-table map of the filter constructed by
`unpack_options`, when construction succeeds. -/
def excluded_tables_of (cfg : Dump_config) :
    Option (String → Finset String) :=
  (unpack_options cfg).toOption.map (fun st => st.m_excluded_tables)

/-! ## Chunk planner

Modelled from the spec (§4.3): the chunk planner implementation is not
among the given sources.  `plan(table, row_count_estimate,
target_chunk_size)` produces an ordered sequence of chunk descriptors;
a table with a usable ordering key has its estimated row count divided
into chunks of the target size, the last chunk absorbing any remainder
(no empty trailing chunk).  A chunk descriptor is pure boundary
metadata, embedded as a half-open row range `(start, stop)`.
-/

/-- The number of planned chunks for a positive row count: the row count
divided by the target chunk size, and a single chunk when the estimate is
below the target size. -/
def chunk_count (rows chunk_size : Nat) : Nat :=
  max 1 (rows / chunk_size)

/-- The `i`-th chunk descriptor: rows `[i * chunk_size, (i+1) *
chunk_size)`, except that the last chunk extends to the full row count,
absorbing the remainder. -/
def chunk_at (rows chunk_size i : Nat) : Nat × Nat :=
  ((i * chunk_size),
    if i + 1 = chunk_count rows chunk_size then rows
    else (i + 1) * chunk_size)

/-- Modelled from the spec: `plan(table, row_count_estimate,
target_chunk_size)` — the ordered sequence of chunk descriptors for a
table with a usable ordering key. -/
def plan_chunks (rows chunk_size : Nat) : List (Nat × Nat) :=
  (List.range (chunk_count rows chunk_size)).map (chunk_at rows chunk_size)

/-! ## Compatibility rule engine

Modelled from the spec (§4.2): the rule engine implementation is not
among the given sources.  `apply(ddl_text, object_kind,
CompatibilityOptionSet)` rewrites captured DDL text; each enabled rule is
a pure text transformation keyed by object kind, and the rules are
applied in a fixed order, so the output does not depend on the order in
which the option names were supplied.
-/

/-- The kind of a catalog object (spec §3: schema, table, view, event, or
routine). -/
inductive Object_kind where
  | schema : Object_kind
  | table : Object_kind
  | view : Object_kind
  | event : Object_kind
  | routine : Object_kind
  deriving DecidableEq, Repr

/-- Modelled from the spec: the pure text transformation of one
compatibility rule, keyed by object kind.  Stripping definers removes
`DEFINER=...` words from objects that carry definer clauses; forcing the
storage engine rewrites `ENGINE=...` words of table DDL; stripping
unsupported index options removes `WITH PARSER`-style index attributes
from table DDL (embedded as words starting with `WITH_PARSER`). -/
def apply_rule (r : Compatibility_option) (kind : Object_kind)
    (ddl : String) : String :=
  match r, kind with
  | Compatibility_option.strip_definer, Object_kind.view
  | Compatibility_option.strip_definer, Object_kind.event
  | Compatibility_option.strip_definer, Object_kind.routine =>
    String.intercalate (" ")
      ((ddl.splitOn (" ")).filter (fun w => !(w.startsWith ("DEFINER="))))
  | Compatibility_option.force_storage_engine, Object_kind.table =>
    String.intercalate (" ")
      ((ddl.splitOn (" ")).map
        (fun w => if w.startsWith ("ENGINE=") then ("ENGINE=InnoDB") else w))
  | Compatibility_option.strip_unsupported_index_options,
    Object_kind.table =>
    String.intercalate (" ")
      ((ddl.splitOn (" ")).filter
        (fun w => !(w.startsWith ("WITH_PARSER"))))
  | _, _ => ddl

/-- Modelled from the spec: the fixed, documented order in which enabled
compatibility rules are applied. -/
def compat_rule_order : List Compatibility_option :=
  [Compatibility_option.force_storage_engine,
   Compatibility_option.strip_definer,
   Compatibility_option.strip_unsupported_index_options]

/-- Modelled from the spec: `apply(ddl_text, object_kind,
CompatibilityOptionSet) -> rewritten_ddl_text` — folds the enabled rules
over the DDL text in the fixed rule order. -/
def apply_compatibility (ddl : String) (kind : Object_kind)
    (opts : Finset Compatibility_option) : String :=
  compat_rule_order.foldl
    (fun acc r => if r ∈ opts then apply_rule r kind acc else acc) ddl

/-- The compatibility option set built from a list of option names, as
`unpack_options` builds it (successive insertion into an initially empty
set). -/
def compat_option_set (names : List String) :
    Except String (Finset Compatibility_option) :=
  process_compatibility names ∅

/-! ## X-protocol result wrappers (`mod_mysqlx_resultset.cc`)

`BaseResult` exposes `warningCount` and `warnings`; `RowResult` and
`DocResult` expose the `fetchOne` / `fetchAll` iteration protocol over
the underlying `::mysqlx::Result` cursor.  The cursor is embedded as the
list of its column metadata together with the list of not-yet-fetched
records; `_result->next()` pops the head of that list.
-/

/-- One warning of the underlying `::mysqlx::Result` (level note/warning,
numeric code, message text). -/
structure Mysqlx_warning where
  is_note : Bool
  code : Nat
  text : String

/-- The `BaseResult` state, as far as the warning accessors read it: the
warning collection of the underlying result. -/
structure Base_result_state where
  warnings : List Mysqlx_warning

/-- `BaseResult::get_warning_count` (lines 138–140): the size of the
underlying warning collection. -/
def get_warning_count (r : Base_result_state) : Nat :=
  r.warnings.length

/-- The row built for one warning by `BaseResult::get_member` (lines
84–92): level, code and message items. -/
def warning_row (w : Mysqlx_warning) : SValue :=
  SValue.objV
    [(("level"), SValue.strV (if w.is_note then ("Note") else ("Warning"))),
     (("code"), SValue.uintV w.code),
     (("message"), SValue.strV w.text)]

/-- The list returned as the `warnings` member by
`BaseResult::get_member` (lines 78–95): one row per warning of the
underlying collection. -/
def warnings_member (r : Base_result_state) : List SValue :=
  r.warnings.map warning_row

/-- `BaseResult::get_member` (lines 69–100), restricted to the two
warning properties the claims are about. -/
def base_get_member (r : Base_result_state) (prop : String) : SValue :=
  if prop = ("warningCount") then SValue.uintV (get_warning_count r)
  else if prop = ("warnings") then SValue.arrV (warnings_member r)
  else SValue.undefinedV

/-- One field of a fetched X-protocol row, carrying the representation
the typed accessors of `::mysqlx::Row` return for it.  Floating-point
and date-time fields are outside the embedding; `setF` mirrors the
unhandled `SET` case of the conversion switch (lines 754–756), which
leaves the field value default-constructed. -/
inductive FieldValue where
  | nullF : FieldValue
  | sintF : Int → FieldValue
  | uintF : Nat → FieldValue
  | bytesF : String → FieldValue
  | decimalF : String → FieldValue
  | timeF : String → FieldValue
  | enumF : String → FieldValue
  | bitF : Nat → FieldValue
  | setF : FieldValue

/-- The conversion switch of `RowResult::fetch_one` (lines 702–758):
one field value to one shell value.  A null field becomes `Null`; the
`SET` case is not handled by the source and leaves the
default-constructed (undefined) value. -/
def convert_field : FieldValue → SValue
  | FieldValue.nullF => SValue.nullV
  | FieldValue.sintF i => SValue.intV i
  | FieldValue.uintF n => SValue.uintV n
  | FieldValue.bytesF s => SValue.strV s
  | FieldValue.decimalF s => SValue.strV s
  | FieldValue.timeF s => SValue.strV s
  | FieldValue.enumF s => SValue.strV s
  | FieldValue.bitF n => SValue.uintV n
  | FieldValue.setF => SValue.undefinedV

/-- The `mysqlsh::Row` built by `RowResult::fetch_one` for one fetched
row: one named item per column of the metadata (display strings are
presentation metadata and are not embedded).  Rows are well formed per
the wire protocol: one field per metadata column (`zip`). -/
def convert_row (metadata : List String) (r : List FieldValue) :
    List (String × SValue) :=
  (metadata.zip r).map (fun p => (p.1, convert_field p.2))

/-- The cursor state of a `RowResult`: the column metadata (as column
names) and the not-yet-fetched rows of the underlying result. -/
structure Row_result_state where
  metadata : List String
  rows : List (List FieldValue)

/-- `RowResult::fetch_one` (lines 689–771): with non-empty column
metadata, pop the next row from the cursor and wrap it as a `Row`
object; otherwise (no metadata, or cursor exhausted) return the
default-constructed, invalid value. -/
def row_fetch_one (st : Row_result_state) : SValue × Row_result_state :=
  if st.metadata.length > 0 then
    match st.rows with
    | [] => (SValue.undefinedV, st)
    | r :: rest =>
      (SValue.objV (convert_row st.metadata r), { st with rows := rest })
  else (SValue.undefinedV, st)

/-- The fetch loop of `RowResult::fetch_all` (lines 787–800), with an
explicit iteration bound: each truthy iteration consumes one row of the
cursor, so `rows.length + 1` iterations are never exhausted and the
bound does not change the loop's semantics. -/
def row_fetch_all_aux : Nat → Row_result_state →
    List SValue × Row_result_state
  | 0, st => ([], st)
  | fuel + 1, st =>
    let p := row_fetch_one st
    if p.1.truthy then
      let q := row_fetch_all_aux fuel p.2
      (p.1 :: q.1, q.2)
    else ([], p.2)

/-- `RowResult::fetch_all` (lines 787–800): repeatedly `fetch_one`,
collecting the records in order, until `fetch_one` yields a falsy
(null/invalid) value. -/
def row_fetch_all (st : Row_result_state) :
    List SValue × Row_result_state :=
  row_fetch_all_aux (st.rows.length + 1) st

/-- The cursor state of a `DocResult`: the column metadata of the
underlying result and the not-yet-fetched documents.  A fetched document
is the parse of the JSON text in column 0 of the row
(`Value::parse(r->stringField(0))`); a collection document is a JSON
object, embedded as its key/value items. -/
structure Doc_result_state where
  metadata : List String
  docs : List (List (String × SValue))

/-- `DocResult::fetch_one` (lines 341–356): the returned value is
initialised to `Null`; with non-empty column metadata and a next row,
it becomes the parsed document. -/
def doc_fetch_one (st : Doc_result_state) : SValue × Doc_result_state :=
  if st.metadata.length > 0 then
    match st.docs with
    | [] => (SValue.nullV, st)
    | d :: rest => (SValue.objV d, { st with docs := rest })
  else (SValue.nullV, st)

/-- The fetch loop of `DocResult::fetch_all` (lines 378–391), with the
same explicit iteration bound as `row_fetch_all_aux`. -/
def doc_fetch_all_aux : Nat → Doc_result_state →
    List SValue × Doc_result_state
  | 0, st => ([], st)
  | fuel + 1, st =>
    let p := doc_fetch_one st
    if p.1.truthy then
      let q := doc_fetch_all_aux fuel p.2
      (p.1 :: q.1, q.2)
    else ([], p.2)

/-- `DocResult::fetch_all` (lines 378–391): repeatedly `fetch_one`,
collecting the documents in order, until `fetch_one` yields a falsy
(null) value. -/
def doc_fetch_all (st : Doc_result_state) :
    List SValue × Doc_result_state :=
  doc_fetch_all_aux (st.docs.length + 1) st

/-- Decidable equality for `Except`, so that embedded computations can be
evaluated inside closed theorems. -/
instance instDecEqExcept {e a : Type} [DecidableEq e] [DecidableEq a] :
    DecidableEq (Except e a) := fun x y =>
  match x, y with
  | Except.error u, Except.error v =>
    decidable_of_iff (u = v)
      ⟨fun h => by rw [h], fun h => by injection h⟩
  | Except.error _, Except.ok _ => isFalse (fun h => Except.noConfusion h)
  | Except.ok _, Except.error _ => isFalse (fun h => Except.noConfusion h)
  | Except.ok u, Except.ok v =>
    decidable_of_iff (u = v)
      ⟨fun h => by rw [h], fun h => by injection h⟩

/-! ## Helper lemmas: the exclusion-parsing loop -/

theorem process_exclusions_error_of_invalid (l : List String) :
    ∀ (m : String → Finset String) (t : String), t ∈ l →
    valid_exclusion_entry t = false →
    ∃ e, process_exclusions l m = Except.error e := by
  induction l with
  | nil => intro m t ht _; cases ht
  | cons a ts ih =>
    intro m t ht hv
    rcases List.mem_cons.mp ht with rfl | hts
    · cases hs : split_schema_and_table t with
      | error e =>
        exact ⟨_, by simp only [process_exclusions, hs]; rfl⟩
      | ok p =>
        obtain ⟨sc, tb⟩ := p
        rw [valid_exclusion_entry, hs] at hv
        simp only [Bool.not_eq_false'] at hv
        exact ⟨_, by simp only [process_exclusions, hs, hv, if_true]; rfl⟩
    · cases hs : split_schema_and_table a with
      | error e =>
        exact ⟨_, by simp only [process_exclusions, hs]; rfl⟩
      | ok p =>
        obtain ⟨sc, tb⟩ := p
        by_cases hsc : sc.isEmpty
        · exact ⟨_, by simp only [process_exclusions, hs, hsc, if_true]; rfl⟩
        · obtain ⟨e, he⟩ :=
            ih (Function.update m sc (insert tb (m sc))) t hts hv
          exact ⟨e, by simp [process_exclusions, hs, hsc, he]⟩

theorem process_exclusions_ok_of_all_valid (l : List String) :
    ∀ (m : String → Finset String),
    (∀ t ∈ l, valid_exclusion_entry t = true) →
    ∃ m2, process_exclusions l m = Except.ok m2 := by
  induction l with
  | nil => intro m _; exact ⟨m, rfl⟩
  | cons a ts ih =>
    intro m hall
    have ha := hall a (List.mem_cons_self a ts)
    cases hs : split_schema_and_table a with
    | error e => rw [valid_exclusion_entry, hs] at ha; cases ha
    | ok p =>
      obtain ⟨sc, tb⟩ := p
      rw [valid_exclusion_entry, hs] at ha
      simp only [Bool.not_eq_true'] at ha
      obtain ⟨m2, hm2⟩ :=
        ih (Function.update m sc (insert tb (m sc)))
          (fun t ht => hall t (List.mem_cons_of_mem a ht))
      exact ⟨m2, by simp [process_exclusions, hs, ha, hm2]⟩

theorem process_exclusions_ok_mem (l : List String) :
    ∀ (m m2 : String → Finset String),
    process_exclusions l m = Except.ok m2 →
    ∀ (s x : String),
    (x ∈ m2 s ↔ x ∈ m s ∨
      ∃ t ∈ l, split_schema_and_table t = Except.ok ((s, x))) := by
  induction l with
  | nil =>
    intro m m2 h s x
    simp only [process_exclusions, Except.ok.injEq] at h
    subst h
    simp
  | cons a ts ih =>
    intro m m2 h s x
    cases hs : split_schema_and_table a with
    | error e => simp [process_exclusions, hs] at h
    | ok p =>
      obtain ⟨sc, tb⟩ := p
      by_cases hsc : sc.isEmpty
      · simp [process_exclusions, hs, hsc] at h
      · rw [process_exclusions, hs] at h
        simp only [hsc, Bool.false_eq_true, if_false] at h
        rw [ih _ _ h s x]
        constructor
        · rintro (hm | ⟨t, htts, hts⟩)
          · by_cases hssc : s = sc
            · subst hssc
              rw [Function.update_same] at hm
              rcases Finset.mem_insert.mp hm with rfl | hm2
              · exact Or.inr ⟨a, List.mem_cons_self a ts, hs⟩
              · exact Or.inl hm2
            · rw [Function.update_noteq hssc] at hm
              exact Or.inl hm
          · exact Or.inr ⟨t, List.mem_cons_of_mem a htts, hts⟩
        · rintro (hm | ⟨t, htts, hts⟩)
          · by_cases hssc : s = sc
            · subst hssc
              rw [Function.update_same]
              exact Or.inl (Finset.mem_insert_of_mem hm)
            · rw [Function.update_noteq hssc]
              exact Or.inl hm
          · rcases List.mem_cons.mp htts with rfl | htts2
            · rw [hs] at hts
              injection hts with hp
              injection hp with h1 h2
              subst h1; subst h2
              left
              rw [Function.update_same]
              exact Finset.mem_insert_self tb (m sc)
            · exact Or.inr ⟨t, htts2, hts⟩

/-! ## Helper lemmas: the compatibility-option loop -/

theorem process_compatibility_error_of_unknown (l : List String) :
    ∀ (s : Finset Compatibility_option) (o : String), o ∈ l →
    (to_compatibility_option o).isOk = false →
    ∃ e, process_compatibility l s = Except.error e := by
  induction l with
  | nil => intro s o ho _; cases ho
  | cons a ts ih =>
    intro s o ho hu
    rcases List.mem_cons.mp ho with rfl | hts
    · cases hc : to_compatibility_option o with
      | error e => exact ⟨e, by simp [process_compatibility, hc]⟩
      | ok c => rw [hc] at hu; cases hu
    · cases hc : to_compatibility_option a with
      | error e => exact ⟨e, by simp [process_compatibility, hc]⟩
      | ok c =>
        obtain ⟨e, he⟩ := ih (insert c s) o hts hu
        exact ⟨e, by simp [process_compatibility, hc, he]⟩

theorem process_compatibility_ok_of_all_known (l : List String) :
    ∀ (s : Finset Compatibility_option),
    (∀ o ∈ l, (to_compatibility_option o).isOk = true) →
    ∃ s2, process_compatibility l s = Except.ok s2 := by
  induction l with
  | nil => intro s _; exact ⟨s, rfl⟩
  | cons a ts ih =>
    intro s hall
    have ha := hall a (List.mem_cons_self a ts)
    cases hc : to_compatibility_option a with
    | error e => rw [hc] at ha; cases ha
    | ok c =>
      obtain ⟨s2, hs2⟩ :=
        ih (insert c s) (fun o ho => hall o (List.mem_cons_of_mem a ho))
      exact ⟨s2, by simp [process_compatibility, hc, hs2]⟩

theorem process_compatibility_ok_mem (l : List String) :
    ∀ (s s2 : Finset Compatibility_option),
    process_compatibility l s = Except.ok s2 →
    ∀ x, (x ∈ s2 ↔ x ∈ s ∨
      ∃ o ∈ l, to_compatibility_option o = Except.ok x) := by
  induction l with
  | nil =>
    intro s s2 h x
    simp only [process_compatibility, Except.ok.injEq] at h
    subst h
    simp
  | cons a ts ih =>
    intro s s2 h x
    cases hc : to_compatibility_option a with
    | error e => simp [process_compatibility, hc] at h
    | ok c =>
      rw [process_compatibility, hc] at h
      rw [ih _ _ h x]
      constructor
      · rintro (hm | ⟨o, hots, ho⟩)
        · rcases Finset.mem_insert.mp hm with rfl | hm2
          · exact Or.inr ⟨a, List.mem_cons_self a ts, hc⟩
          · exact Or.inl hm2
        · exact Or.inr ⟨o, List.mem_cons_of_mem a hots, ho⟩
      · rintro (hm | ⟨o, hots, ho⟩)
        · exact Or.inl (Finset.mem_insert_of_mem hm)
        · rcases List.mem_cons.mp hots with rfl | hots2
          · rw [hc] at ho
            injection ho with hcx
            subst hcx
            exact Or.inl (Finset.mem_insert_self c s)
          · exact Or.inr ⟨o, hots2, ho⟩

theorem process_compatibility_mono (l : List String)
    (s s2 : Finset Compatibility_option)
    (h : process_compatibility l s = Except.ok s2) : s ⊆ s2 := by
  intro x hx
  exact (process_compatibility_ok_mem l s s2 h x).mpr (Or.inl hx)

/-! ## Helper lemmas: `unpack_options` -/

theorem unpack_options_eq (cfg : Dump_config) :
    unpack_options cfg =
      match process_exclusions cfg.excludeTables (fun _ => ∅) with
      | Except.error e => Except.error e
      | Except.ok excl =>
        match process_compatibility cfg.compatibility
            (if cfg.ocimds then ∅ ∪ mds_compatibility_options else ∅) with
        | Except.error e => Except.error e
        | Except.ok comp =>
          Except.ok
            { m_schemas := cfg.schemas
              m_dump_events := cfg.events
              m_dump_routines := cfg.routines
              m_excluded_tables := excl
              m_compatibility_options := comp
              m_mds_version :=
                if cfg.ocimds then some MYSH_VERSION else none } := by
  rw [unpack_options]
  cases process_exclusions cfg.excludeTables (fun _ => ∅) with
  | error e => rfl
  | ok excl =>
    cases hoc : cfg.ocimds with
    | false => rfl
    | true => rfl

theorem unpack_options_ok_parts (cfg : Dump_config) (st : Dump_state)
    (h : unpack_options cfg = Except.ok st) :
    st.m_schemas = cfg.schemas ∧
    st.m_dump_events = cfg.events ∧
    st.m_dump_routines = cfg.routines ∧
    process_exclusions cfg.excludeTables (fun _ => ∅) =
      Except.ok st.m_excluded_tables ∧
    st.m_mds_version = (if cfg.ocimds then some MYSH_VERSION else none) ∧
    process_compatibility cfg.compatibility
        (if cfg.ocimds then mds_compatibility_options else ∅) =
      Except.ok st.m_compatibility_options := by
  rw [unpack_options_eq] at h
  cases hpe : process_exclusions cfg.excludeTables (fun _ => ∅) with
  | error e => rw [hpe] at h; cases h
  | ok excl =>
    rw [hpe] at h
    cases hpc : process_compatibility cfg.compatibility
        (if cfg.ocimds then ∅ ∪ mds_compatibility_options else ∅) with
    | error e => rw [hpc] at h; cases h
    | ok comp =>
      rw [hpc] at h
      injection h with h2
      subst h2
      refine ⟨rfl, rfl, rfl, rfl, rfl, ?_⟩
      rw [← hpc]
      congr 1

theorem unpack_options_error_of_invalid_exclusion (cfg : Dump_config)
    (t : String) (ht : t ∈ cfg.excludeTables)
    (hv : valid_exclusion_entry t = false) :
    ∃ e, unpack_options cfg = Except.error e := by
  obtain ⟨e, he⟩ :=
    process_exclusions_error_of_invalid cfg.excludeTables (fun _ => ∅) t
      ht hv
  exact ⟨e, by rw [unpack_options_eq, he]⟩

theorem unpack_options_error_of_unknown_compat (cfg : Dump_config)
    (o : String) (ho : o ∈ cfg.compatibility)
    (hu : (to_compatibility_option o).isOk = false) :
    ∃ e, unpack_options cfg = Except.error e := by
  rw [unpack_options_eq]
  cases hpe : process_exclusions cfg.excludeTables (fun _ => ∅) with
  | error e => exact ⟨e, rfl⟩
  | ok excl =>
    obtain ⟨e, he⟩ :=
      process_compatibility_error_of_unknown cfg.compatibility
        (if cfg.ocimds then ∅ ∪ mds_compatibility_options else ∅) o ho hu
    exact ⟨e, by rw [he]⟩

theorem unpack_options_ok_exists (cfg : Dump_config)
    (hex : ∀ t ∈ cfg.excludeTables, valid_exclusion_entry t = true)
    (hco : ∀ o ∈ cfg.compatibility, (to_compatibility_option o).isOk = true) :
    ∃ st, unpack_options cfg = Except.ok st := by
  rw [unpack_options_eq]
  obtain ⟨excl, hexcl⟩ :=
    process_exclusions_ok_of_all_valid cfg.excludeTables (fun _ => ∅) hex
  rw [hexcl]
  obtain ⟨comp, hcomp⟩ :=
    process_compatibility_ok_of_all_known cfg.compatibility
      (if cfg.ocimds then ∅ ∪ mds_compatibility_options else ∅) hco
  rw [hcomp]
  exact ⟨_, rfl⟩

/-! ## Helper lemmas: the chunk planner -/

theorem chunk_count_pos (rows chunk_size : Nat) :
    0 < chunk_count rows chunk_size :=
  Nat.lt_of_lt_of_le Nat.zero_lt_one (le_max_left 1 (rows / chunk_size))

theorem plan_chunks_length (rows chunk_size : Nat) :
    (plan_chunks rows chunk_size).length = chunk_count rows chunk_size := by
  simp [plan_chunks]

theorem plan_chunks_get (rows chunk_size : Nat) (i : Nat)
    (h : i < (plan_chunks rows chunk_size).length) :
    (plan_chunks rows chunk_size).get ⟨i, h⟩ = chunk_at rows chunk_size i := by
  simp [plan_chunks, List.get_eq_getElem]

theorem plan_chunks_getElem (rows chunk_size i : Nat)
    (h : i < (plan_chunks rows chunk_size).length) :
    (plan_chunks rows chunk_size)[i] = chunk_at rows chunk_size i := by
  simp [plan_chunks]

theorem chunk_last_end_lt (rows chunk_size : Nat) (hr : 0 < rows)
    (hc : 0 < chunk_size) :
    (chunk_count rows chunk_size - 1) * chunk_size < rows := by
  rcases Nat.lt_or_ge rows chunk_size with hlt | hge
  · have h0 : rows / chunk_size = 0 := Nat.div_eq_of_lt hlt
    rw [chunk_count, h0]
    simpa using hr
  · have hq : 1 ≤ rows / chunk_size := (Nat.one_le_div_iff hc).mpr hge
    rw [chunk_count, max_eq_right hq]
    have hqc : rows / chunk_size * chunk_size ≤ rows :=
      Nat.div_mul_le_self rows chunk_size
    have hsucc : rows / chunk_size - 1 + 1 = rows / chunk_size :=
      Nat.succ_pred_eq_of_pos hq
    have h1 : (rows / chunk_size - 1) * chunk_size + chunk_size ≤ rows := by
      calc (rows / chunk_size - 1) * chunk_size + chunk_size
          = (rows / chunk_size - 1 + 1) * chunk_size := by
            rw [Nat.succ_mul]
        _ = rows / chunk_size * chunk_size := by rw [hsucc]
        _ ≤ rows := hqc
    exact Nat.lt_of_lt_of_le (Nat.lt_add_of_pos_right hc) h1

/-! ## Helper lemmas: the fetch loops -/

theorem row_fetch_all_aux_spec (md : List String) (hmd : md ≠ []) :
    ∀ (rows : List (List FieldValue)) (fuel : Nat), rows.length < fuel →
    row_fetch_all_aux fuel ⟨md, rows⟩ =
      ((rows.map (fun r => SValue.objV (convert_row md r))),
        ⟨md, []⟩) := by
  have hpos : 0 < md.length := List.length_pos.mpr hmd
  intro rows
  induction rows with
  | nil =>
    intro fuel hf
    cases fuel with
    | zero => cases hf
    | succ f =>
      simp [row_fetch_all_aux, row_fetch_one, hpos, SValue.truthy]
  | cons r rest ih =>
    intro fuel hf
    cases fuel with
    | zero => cases hf
    | succ f =>
      have hf2 : rest.length < f := by
        simpa using Nat.lt_of_succ_lt_succ hf
      simp only [row_fetch_all_aux, row_fetch_one, hpos, if_pos,
        SValue.truthy]
      rw [ih f hf2]
      simp [SValue.truthy]

theorem row_fetch_all_aux_nil_md (rows : List (List FieldValue))
    (fuel : Nat) (hf : 0 < fuel) :
    row_fetch_all_aux fuel ⟨[], rows⟩ = ([], ⟨[], rows⟩) := by
  cases fuel with
  | zero => cases hf
  | succ f => simp [row_fetch_all_aux, row_fetch_one, SValue.truthy]

theorem row_fetch_all_spec (md : List String)
    (rows : List (List FieldValue)) :
    row_fetch_all ⟨md, rows⟩ =
      (if md = [] then (([] : List SValue), ⟨md, rows⟩)
       else ((rows.map (fun r => SValue.objV (convert_row md r))),
         ⟨md, []⟩)) := by
  by_cases hmd : md = []
  · subst hmd
    rw [if_pos rfl]
    exact row_fetch_all_aux_nil_md rows _ (Nat.succ_pos _)
  · rw [if_neg hmd]
    exact row_fetch_all_aux_spec md hmd rows _ (Nat.lt_succ_self _)

theorem doc_fetch_all_aux_spec (md : List String) (hmd : md ≠ []) :
    ∀ (docs : List (List (String × SValue))) (fuel : Nat),
    docs.length < fuel →
    doc_fetch_all_aux fuel ⟨md, docs⟩ =
      ((docs.map SValue.objV), ⟨md, []⟩) := by
  have hpos : 0 < md.length := List.length_pos.mpr hmd
  intro docs
  induction docs with
  | nil =>
    intro fuel hf
    cases fuel with
    | zero => cases hf
    | succ f =>
      simp [doc_fetch_all_aux, doc_fetch_one, hpos, SValue.truthy]
  | cons d rest ih =>
    intro fuel hf
    cases fuel with
    | zero => cases hf
    | succ f =>
      have hf2 : rest.length < f := by
        simpa using Nat.lt_of_succ_lt_succ hf
      simp only [doc_fetch_all_aux, doc_fetch_one, hpos, if_pos,
        SValue.truthy]
      rw [ih f hf2]
      simp [SValue.truthy]

theorem doc_fetch_all_aux_nil_md (docs : List (List (String × SValue)))
    (fuel : Nat) (hf : 0 < fuel) :
    doc_fetch_all_aux fuel ⟨[], docs⟩ = ([], ⟨[], docs⟩) := by
  cases fuel with
  | zero => cases hf
  | succ f => simp [doc_fetch_all_aux, doc_fetch_one, SValue.truthy]

theorem doc_fetch_all_spec (md : List String)
    (docs : List (List (String × SValue))) :
    doc_fetch_all ⟨md, docs⟩ =
      (if md = [] then (([] : List SValue), ⟨md, docs⟩)
       else ((docs.map SValue.objV), ⟨md, []⟩)) := by
  by_cases hmd : md = []
  · subst hmd
    rw [if_pos rfl]
    exact doc_fetch_all_aux_nil_md docs _ (Nat.succ_pos _)
  · rw [if_neg hmd]
    exact doc_fetch_all_aux_spec md hmd docs _ (Nat.lt_succ_self _)

/-! ## The claims -/

/-- A configuration whose exclusion list names a schema (`s2`) that is not
among the requested schemas (`s1`). -/
def c1_config : Dump_config :=
  { schemas := ["s1"]
    excludeTables := ["s2.t_secret"]
    events := true
    routines := true
    ocimds := false
    compatibility := [] }

/-- C1, counterexample: the claim states that a configuration whose
exclusion list contains `schema.table` with `schema` outside the requested
schemas fails validation with a `ConfigurationError`.  On the code it does
not: `unpack_options` records the exclusion and `validate_options`
succeeds — the entry `s2.t_secret` with requested schemas `["s1"]` is
accepted, and `t_secret` is silently kept in the excluded-table set of
the unrequested schema `s2`. -/
theorem C1_counterexample :
    split_schema_and_table ("s2.t_secret") = Except.ok (("s2", "t_secret"))
    ∧ ("s2") ∉ c1_config.schemas
    ∧ (unpack_options c1_config).bind validate_options = Except.ok ()
    ∧ (excluded_tables_of c1_config).map (fun m => m ("s2")) =
        some ({"t_secret"} : Finset String) := by
  decide

/-- C1, amended: an exclusion entry whose schema is not among the
requested schemas is not rejected — for every configuration with a
non-empty requested schema list, well-formed exclusion entries and known
compatibility option names, unpacking and validation succeed (regardless
of whether the exclusion schemas are requested), and every parsed
exclusion pair is recorded in the per-schema excluded-table map. -/
theorem C1_amended_exclusion_schema_not_checked (cfg : Dump_config)
    (hs : cfg.schemas ≠ [])
    (hex : ∀ t ∈ cfg.excludeTables, valid_exclusion_entry t = true)
    (hco : ∀ o ∈ cfg.compatibility,
      (to_compatibility_option o).isOk = true) :
    ∃ st, unpack_options cfg = Except.ok st ∧
      validate_options st = Except.ok () ∧
      ∀ (s x t : String), t ∈ cfg.excludeTables →
        split_schema_and_table t = Except.ok ((s, x)) →
        x ∈ st.m_excluded_tables s := by
  obtain ⟨st, hst⟩ := unpack_options_ok_exists cfg hex hco
  obtain ⟨h1, _, _, h4, _, _⟩ := unpack_options_ok_parts cfg st hst
  refine ⟨st, hst, ?_, ?_⟩
  · rw [validate_options, h1, if_neg hs]
  · intro s x t ht hsp
    exact (process_exclusions_ok_mem cfg.excludeTables _ _ h4 s x).mpr
      (Or.inr ⟨t, ht, hsp⟩)

/-- C1, witness: the amended statement applied to the concrete
counterexample configuration. -/
theorem C1_witness :
    (c1_config.schemas ≠ []) ∧
    (∀ t ∈ c1_config.excludeTables, valid_exclusion_entry t = true) ∧
    (∀ o ∈ c1_config.compatibility,
      (to_compatibility_option o).isOk = true) ∧
    (∃ st, unpack_options c1_config = Except.ok st ∧
      validate_options st = Except.ok () ∧
      ∀ (s x t : String), t ∈ c1_config.excludeTables →
        split_schema_and_table t = Except.ok ((s, x)) →
        x ∈ st.m_excluded_tables s) :=
  ⟨by decide, by decide, by decide,
    C1_amended_exclusion_schema_not_checked c1_config (by decide)
      (by decide) (by decide)⟩

/-- C2: every exclusion entry that does not parse into two non-empty
identifiers `schema.table` (no dot, empty schema part, empty table part,
or a malformed table part) makes `unpack_options` fail with a
`ConfigurationError`. -/
theorem C2_invalid_exclusion_rejected (cfg : Dump_config) (t : String)
    (ht : t ∈ cfg.excludeTables)
    (hv : valid_exclusion_entry t = false) :
    ∃ e, unpack_options cfg = Except.error e :=
  unpack_options_error_of_invalid_exclusion cfg t ht hv

/-- A configuration whose exclusion list holds an entry with no dot. -/
def c2_config : Dump_config :=
  { schemas := ["s1"]
    excludeTables := ["t_nodot"]
    events := true
    routines := true
    ocimds := false
    compatibility := [] }

/-- C2, witness: the malformed entry `t_nodot` is rejected. -/
theorem C2_witness :
    (("t_nodot") ∈ c2_config.excludeTables) ∧
    (valid_exclusion_entry ("t_nodot") = false) ∧
    (∃ e, unpack_options c2_config = Except.error e) :=
  ⟨by decide, by decide,
    C2_invalid_exclusion_rejected c2_config ("t_nodot") (by decide)
      (by decide)⟩

/-- C3: `validate_options` fails with a `ConfigurationError` exactly when
the requested schema list is empty; with at least one requested schema
this check passes. -/
theorem C3_empty_schema_list_rejected (st : Dump_state) :
    (st.m_schemas = [] → ∃ e, validate_options st = Except.error e) ∧
    (st.m_schemas ≠ [] → validate_options st = Except.ok ()) := by
  constructor
  · intro h
    exact ⟨_, by rw [validate_options, if_pos h]⟩
  · intro h
    rw [validate_options, if_neg h]

/-- C3, witness: a state with no schemas fails validation, a state with
one schema passes it. -/
theorem C3_witness :
    ((Dump_state.mk [] true true (fun _ => ∅) ∅ none).m_schemas = []) ∧
    (∃ e, validate_options (Dump_state.mk [] true true (fun _ => ∅) ∅ none)
      = Except.error e) ∧
    ((Dump_state.mk ["s1"] true true (fun _ => ∅) ∅ none).m_schemas ≠ []) ∧
    (validate_options (Dump_state.mk ["s1"] true true (fun _ => ∅) ∅ none)
      = Except.ok ()) :=
  ⟨rfl,
    (C3_empty_schema_list_rejected
      (Dump_state.mk [] true true (fun _ => ∅) ∅ none)).1 rfl,
    by decide,
    (C3_empty_schema_list_rejected
      (Dump_state.mk ["s1"] true true (fun _ => ∅) ∅ none)).2 (by decide)⟩

/-- C4: every compatibility option name that `to_compatibility_option`
does not recognise makes `unpack_options` fail with a
`ConfigurationError` at configuration (option-unpacking) time — the
embedding of the configuration stage, before any rewriting is reached. -/
theorem C4_unknown_compatibility_rejected (cfg : Dump_config) (o : String)
    (ho : o ∈ cfg.compatibility)
    (hu : (to_compatibility_option o).isOk = false) :
    ∃ e, unpack_options cfg = Except.error e :=
  unpack_options_error_of_unknown_compat cfg o ho hu

/-- A configuration supplying an unknown compatibility option name. -/
def c4_config : Dump_config :=
  { schemas := ["s1"]
    excludeTables := []
    events := true
    routines := true
    ocimds := false
    compatibility := ["bogus_option"] }

/-- C4, witness: the unknown name `bogus_option` is rejected. -/
theorem C4_witness :
    (("bogus_option") ∈ c4_config.compatibility) ∧
    ((to_compatibility_option ("bogus_option")).isOk = false) ∧
    (∃ e, unpack_options c4_config = Except.error e) :=
  ⟨by decide, by decide,
    C4_unknown_compatibility_rejected c4_config ("bogus_option")
      (by decide) (by decide)⟩

/-- C5: when the `ocimds` flag is set, successful unpacking both enables
the target-mode preset's fixed rule subset (it is contained in the
resulting option set) and records the minimum-supported-target-version
tag; when the flag is false, the tag stays unset and the resulting option
set is exactly the fold of the user-supplied option names from the empty
set — the preset contributes nothing. -/
theorem C5_target_mode_preset (cfg : Dump_config) (st : Dump_state)
    (h : unpack_options cfg = Except.ok st) :
    (cfg.ocimds = true →
      mds_compatibility_options ⊆ st.m_compatibility_options ∧
      st.m_mds_version = some MYSH_VERSION) ∧
    (cfg.ocimds = false →
      st.m_mds_version = none ∧
      process_compatibility cfg.compatibility ∅ =
        Except.ok st.m_compatibility_options) := by
  obtain ⟨_, _, _, _, h5, h6⟩ := unpack_options_ok_parts cfg st h
  constructor
  · intro hoc
    rw [if_pos hoc] at h5
    rw [if_pos hoc] at h6
    exact ⟨process_compatibility_mono _ _ _ h6, h5⟩
  · intro hoc
    have hoc2 : ¬(cfg.ocimds = true) := by
      rw [hoc]
      exact Bool.false_ne_true
    rw [if_neg hoc2] at h5
    rw [if_neg hoc2] at h6
    exact ⟨h5, h6⟩

/-- A configuration with the target-mode preset enabled. -/
def c5_config : Dump_config :=
  { schemas := ["s1"]
    excludeTables := []
    events := true
    routines := true
    ocimds := true
    compatibility := [] }

/-- The state `unpack_options` builds for `c5_config`. -/
def c5_state : Dump_state :=
  { m_schemas := ["s1"]
    m_dump_events := true
    m_dump_routines := true
    m_excluded_tables := fun _ => ∅
    m_compatibility_options := ∅ ∪ mds_compatibility_options
    m_mds_version := some MYSH_VERSION }

/-- C5, witness: with `ocimds` enabled, the preset subset is enabled and
the version tag recorded. -/
theorem C5_witness :
    (unpack_options c5_config = Except.ok c5_state) ∧
    (c5_config.ocimds = true) ∧
    (mds_compatibility_options ⊆ c5_state.m_compatibility_options ∧
      c5_state.m_mds_version = some MYSH_VERSION) :=
  ⟨rfl, rfl, (C5_target_mode_preset c5_config c5_state rfl).1 rfl⟩

/-- C6: for a positive row-count estimate and a positive target chunk
size, the planned chunk descriptors form a non-empty ordered sequence of
non-empty, contiguous, non-overlapping half-open ranges starting at row 0
and ending exactly at the full row count (the last chunk absorbs the
remainder), and 1,000,000 rows with target chunk size 100,000 plan into
exactly 10 descriptors. -/
theorem C6_chunk_plan (rows chunk_size : Nat) (hr : 0 < rows)
    (hc : 0 < chunk_size) :
    (plan_chunks rows chunk_size ≠ []) ∧
    (∀ (i : Nat) (h : i < (plan_chunks rows chunk_size).length),
      ((plan_chunks rows chunk_size).get ⟨i, h⟩).1 <
        ((plan_chunks rows chunk_size).get ⟨i, h⟩).2) ∧
    (∀ (h0 : 0 < (plan_chunks rows chunk_size).length),
      ((plan_chunks rows chunk_size).get ⟨0, h0⟩).1 = 0) ∧
    (∀ (i : Nat) (h1 : i + 1 < (plan_chunks rows chunk_size).length),
      ((plan_chunks rows chunk_size).get ⟨i, Nat.lt_of_succ_lt h1⟩).2 =
        ((plan_chunks rows chunk_size).get ⟨i + 1, h1⟩).1) ∧
    (∀ (hne : plan_chunks rows chunk_size ≠ []),
      ((plan_chunks rows chunk_size).getLast hne).2 = rows) ∧
    ((plan_chunks 1000000 100000).length = 10) := by
  have hlen := plan_chunks_length rows chunk_size
  have hnpos : 0 < chunk_count rows chunk_size :=
    chunk_count_pos rows chunk_size
  refine ⟨?_, ?_, ?_, ?_, ?_, ?_⟩
  · apply List.length_pos.mp
    rw [hlen]
    exact hnpos
  · intro i h
    rw [plan_chunks_get, chunk_at]
    by_cases hl : i + 1 = chunk_count rows chunk_size
    · rw [if_pos hl]
      have hieq : i = chunk_count rows chunk_size - 1 := by omega
      rw [hieq]
      exact chunk_last_end_lt rows chunk_size hr hc
    · rw [if_neg hl]
      exact (Nat.mul_lt_mul_right hc).mpr (Nat.lt_succ_self i)
  · intro h0
    rw [plan_chunks_get, chunk_at]
    exact Nat.zero_mul chunk_size
  · intro i h1
    rw [plan_chunks_get, plan_chunks_get, chunk_at, chunk_at]
    have hne2 : i + 1 ≠ chunk_count rows chunk_size :=
      Nat.ne_of_lt (hlen ▸ h1)
    rw [if_neg hne2]
  · intro hne
    rw [List.getLast_eq_getElem, plan_chunks_getElem, chunk_at]
    have hcond : (plan_chunks rows chunk_size).length - 1 + 1 =
        chunk_count rows chunk_size := by
      rw [hlen]
      omega
    rw [if_pos hcond]
  · decide

/-- C6, witness: the theorem applied to the concrete 1,000,000-row,
100,000-chunk-size scenario. -/
theorem C6_witness :
    (0 < 1000000) ∧ (0 < 100000) ∧
    (plan_chunks 1000000 100000 ≠ []) ∧
    ((plan_chunks 1000000 100000).length = 10) :=
  ⟨by decide, by decide,
    (C6_chunk_plan 1000000 100000 (by decide) (by decide)).1,
    (C6_chunk_plan 1000000 100000 (by decide) (by decide)).2.2.2.2.2⟩

/-- C7: compatibility rewriting is a pure function of the DDL text, the
object kind and the enabled option set — two applications with identical
inputs yield identical output — and the option sets built from two
permutations of the same supplied option-name list rewrite every DDL text
identically, so the output does not depend on the order in which the
options were supplied. -/
theorem C7_rewrite_deterministic (ddl : String) (kind : Object_kind)
    (opts : Finset Compatibility_option) (l1 l2 : List String)
    (hperm : l1.Perm l2) (s1 s2 : Finset Compatibility_option)
    (h1 : compat_option_set l1 = Except.ok s1)
    (h2 : compat_option_set l2 = Except.ok s2) :
    apply_compatibility ddl kind opts = apply_compatibility ddl kind opts ∧
    apply_compatibility ddl kind s1 = apply_compatibility ddl kind s2 := by
  refine ⟨rfl, ?_⟩
  rw [compat_option_set] at h1 h2
  have hs : s1 = s2 := by
    apply Finset.ext
    intro x
    rw [process_compatibility_ok_mem l1 ∅ s1 h1 x,
        process_compatibility_ok_mem l2 ∅ s2 h2 x]
    constructor
    · rintro (hx | ⟨o, ho, hox⟩)
      · exact (Finset.not_mem_empty x hx).elim
      · exact Or.inr ⟨o, hperm.mem_iff.mp ho, hox⟩
    · rintro (hx | ⟨o, ho, hox⟩)
      · exact (Finset.not_mem_empty x hx).elim
      · exact Or.inr ⟨o, hperm.mem_iff.mpr ho, hox⟩
  rw [hs]

/-- C7, witness: two supply orders of the same two option names yield
option sets that rewrite a table DDL identically. -/
theorem C7_witness :
    ((["strip-definer", "force-storage-engine"] : List String).Perm
      (["force-storage-engine", "strip-definer"])) ∧
    (compat_option_set (["strip-definer", "force-storage-engine"]) =
      Except.ok (insert Compatibility_option.force_storage_engine
        (insert Compatibility_option.strip_definer ∅))) ∧
    (compat_option_set (["force-storage-engine", "strip-definer"]) =
      Except.ok (insert Compatibility_option.strip_definer
        (insert Compatibility_option.force_storage_engine ∅))) ∧
    (apply_compatibility ("CREATE TABLE t1 (a INT) ENGINE=MyISAM")
        Object_kind.table
        (insert Compatibility_option.force_storage_engine
          (insert Compatibility_option.strip_definer ∅)) =
      apply_compatibility ("CREATE TABLE t1 (a INT) ENGINE=MyISAM")
        Object_kind.table
        (insert Compatibility_option.strip_definer
          (insert Compatibility_option.force_storage_engine ∅))) :=
  ⟨by decide, by decide, by decide,
    (C7_rewrite_deterministic ("CREATE TABLE t1 (a INT) ENGINE=MyISAM")
      Object_kind.table ∅
      (["strip-definer", "force-storage-engine"])
      (["force-storage-engine", "strip-definer"]) (by decide)
      (insert Compatibility_option.force_storage_engine
        (insert Compatibility_option.strip_definer ∅))
      (insert Compatibility_option.strip_definer
        (insert Compatibility_option.force_storage_engine ∅))
      (by decide) (by decide)).2⟩

/-- C8: two exclusion lists with the same set of entries (in particular a
list with duplicated entries and its deduplication, or any reordering)
produce the same per-schema excluded-table map — duplicate exclusion
entries are idempotent and exclusion order does not affect the
constructed filter. -/
theorem C8_duplicate_exclusions_idempotent (cfg : Dump_config)
    (l1 l2 : List String) (hm : l1.toFinset = l2.toFinset) :
    excluded_tables_of { cfg with excludeTables := l1 } =
      excluded_tables_of { cfg with excludeTables := l2 } := by
  have hmem : ∀ t : String, t ∈ l1 ↔ t ∈ l2 := by
    intro t
    rw [← List.mem_toFinset, hm, List.mem_toFinset]
  by_cases hall : ∀ t ∈ l1, valid_exclusion_entry t = true
  · have hall2 : ∀ t ∈ l2, valid_exclusion_entry t = true :=
      fun t ht => hall t ((hmem t).mpr ht)
    obtain ⟨m1, hm1⟩ :=
      process_exclusions_ok_of_all_valid l1 (fun _ => ∅) hall
    obtain ⟨m2, hm2⟩ :=
      process_exclusions_ok_of_all_valid l2 (fun _ => ∅) hall2
    have hmm : m1 = m2 := by
      funext s
      apply Finset.ext
      intro x
      rw [process_exclusions_ok_mem l1 (fun _ => ∅) m1 hm1 s x,
          process_exclusions_ok_mem l2 (fun _ => ∅) m2 hm2 s x]
      constructor
      · rintro (hx | ⟨t, ht, hts⟩)
        · exact Or.inl hx
        · exact Or.inr ⟨t, (hmem t).mp ht, hts⟩
      · rintro (hx | ⟨t, ht, hts⟩)
        · exact Or.inl hx
        · exact Or.inr ⟨t, (hmem t).mpr ht, hts⟩
    rw [excluded_tables_of, excluded_tables_of, unpack_options_eq,
      unpack_options_eq, hm1, hm2, hmm]
  · push_neg at hall
    obtain ⟨t, ht, hv⟩ := hall
    have hv2 : valid_exclusion_entry t = false := by
      cases hb : valid_exclusion_entry t
      · rfl
      · exact absurd hb hv
    obtain ⟨e1, he1⟩ := unpack_options_error_of_invalid_exclusion
      { cfg with excludeTables := l1 } t ht hv2
    obtain ⟨e2, he2⟩ := unpack_options_error_of_invalid_exclusion
      { cfg with excludeTables := l2 } t ((hmem t).mp ht) hv2
    rw [excluded_tables_of, excluded_tables_of, he1, he2]
    rfl

/-- The base configuration for the duplicate-exclusion witness. -/
def c8_base : Dump_config :=
  { schemas := ["a"]
    excludeTables := []
    events := true
    routines := true
    ocimds := false
    compatibility := [] }

/-- C8, witness: excluding `a.t` twice builds the same filter as
excluding it once. -/
theorem C8_witness :
    ((["a.t", "a.t"] : List String).toFinset =
      (["a.t"] : List String).toFinset) ∧
    (excluded_tables_of { c8_base with excludeTables := ["a.t", "a.t"] } =
      excluded_tables_of { c8_base with excludeTables := ["a.t"] }) :=
  ⟨by decide, C8_duplicate_exclusions_idempotent c8_base
    (["a.t", "a.t"]) (["a.t"]) (by decide)⟩

/-- C9: the `warningCount` member equals the length of the list returned
as the `warnings` member — both derive from the same underlying warning
collection — and the count is zero exactly when that list is empty. -/
theorem C9_warning_count_matches_warnings (r : Base_result_state) :
    base_get_member r ("warningCount") =
      SValue.uintV ((warnings_member r).length) ∧
    base_get_member r ("warnings") = SValue.arrV (warnings_member r) ∧
    get_warning_count r = (warnings_member r).length ∧
    (get_warning_count r = 0 ↔ warnings_member r = []) := by
  refine ⟨?_, ?_, ?_, ?_⟩
  · rw [base_get_member, if_pos rfl, get_warning_count, warnings_member,
      List.length_map]
  · rw [base_get_member, if_neg (by decide), if_pos rfl]
  · rw [get_warning_count, warnings_member, List.length_map]
  · rw [get_warning_count, warnings_member]
    simp

/-- C10: `fetchAll` collects exactly the records successive `fetchOne`
calls produce, in order — for a result with column metadata it returns
all remaining records of the cursor, otherwise the empty list — and
afterwards the result is exhausted: `fetchOne` on the post-`fetchAll`
state returns the null/invalid value (falsy), and `fetchAll` on the
exhausted state returns the empty list.  This holds for `RowResult`
(records wrapped as Row objects, miss value `Undefined`) and for
`DocResult` (parsed documents, miss value `Null`). -/
theorem C10_fetch_protocol (st : Row_result_state)
    (dst : Doc_result_state) :
    ((row_fetch_all st).1 =
      (if st.metadata = [] then ([] : List SValue)
       else st.rows.map (fun r => SValue.objV (convert_row st.metadata r))))
    ∧
    (row_fetch_one ((row_fetch_all st).2) =
      (SValue.undefinedV, (row_fetch_all st).2)) ∧
    (SValue.truthy (row_fetch_one ((row_fetch_all st).2)).1 = false) ∧
    (row_fetch_all ((row_fetch_all st).2) = ([], (row_fetch_all st).2)) ∧
    ((doc_fetch_all dst).1 =
      (if dst.metadata = [] then ([] : List SValue)
       else dst.docs.map SValue.objV)) ∧
    (doc_fetch_one ((doc_fetch_all dst).2) =
      (SValue.nullV, (doc_fetch_all dst).2)) ∧
    (doc_fetch_all ((doc_fetch_all dst).2) = ([], (doc_fetch_all dst).2))
    := by
  obtain ⟨md, rows⟩ := st
  obtain ⟨dmd, docs⟩ := dst
  have hone : row_fetch_one ((row_fetch_all ⟨md, rows⟩).2) =
      (SValue.undefinedV, (row_fetch_all ⟨md, rows⟩).2) := by
    rw [row_fetch_all_spec]
    by_cases hmd : md = []
    · rw [if_pos hmd]
      subst hmd
      simp [row_fetch_one]
    · rw [if_neg hmd]
      have hpos : 0 < md.length := List.length_pos.mpr hmd
      simp [row_fetch_one, hpos]
  have hdone : doc_fetch_one ((doc_fetch_all ⟨dmd, docs⟩).2) =
      (SValue.nullV, (doc_fetch_all ⟨dmd, docs⟩).2) := by
    rw [doc_fetch_all_spec]
    by_cases hmd : dmd = []
    · rw [if_pos hmd]
      subst hmd
      simp [doc_fetch_one]
    · rw [if_neg hmd]
      have hpos : 0 < dmd.length := List.length_pos.mpr hmd
      simp [doc_fetch_one, hpos]
  have hagain : row_fetch_all ((row_fetch_all ⟨md, rows⟩).2) =
      ([], (row_fetch_all ⟨md, rows⟩).2) := by
    by_cases hmd : md = []
    · have h2 : (row_fetch_all (⟨md, rows⟩ : Row_result_state)).2 =
          ⟨md, rows⟩ := by
        rw [row_fetch_all_spec, if_pos hmd]
      rw [h2, row_fetch_all_spec, if_pos hmd]
    · have h2 : (row_fetch_all (⟨md, rows⟩ : Row_result_state)).2 =
          ⟨md, []⟩ := by
        rw [row_fetch_all_spec, if_neg hmd]
      rw [h2, row_fetch_all_spec, if_neg hmd]
      simp
  have hdagain : doc_fetch_all ((doc_fetch_all ⟨dmd, docs⟩).2) =
      ([], (doc_fetch_all ⟨dmd, docs⟩).2) := by
    by_cases hmd : dmd = []
    · have h2 : (doc_fetch_all (⟨dmd, docs⟩ : Doc_result_state)).2 =
          ⟨dmd, docs⟩ := by
        rw [doc_fetch_all_spec, if_pos hmd]
      rw [h2, doc_fetch_all_spec, if_pos hmd]
    · have h2 : (doc_fetch_all (⟨dmd, docs⟩ : Doc_result_state)).2 =
          ⟨dmd, []⟩ := by
        rw [doc_fetch_all_spec, if_neg hmd]
      rw [h2, doc_fetch_all_spec, if_neg hmd]
      simp
  refine ⟨?_, hone, ?_, hagain, ?_, hdone, hdagain⟩
  · rw [row_fetch_all_spec]
    by_cases hmd : md = []
    · rw [if_pos hmd, if_pos hmd]
    · rw [if_neg hmd, if_neg hmd]
  · rw [hone]
    rfl
  · rw [doc_fetch_all_spec]
    by_cases hmd : dmd = []
    · rw [if_pos hmd, if_pos hmd]
    · rw [if_neg hmd, if_neg hmd]

end MysqlShell
